import Mathlib

/-!
Verification of the damped-animation / coordinate-projection core of the
earth-diagram repository (src/components/loadingOverlay.jsx,
src/components/wonderLabel.jsx, src/utils/latLongToVec.js).

The per-frame numeric code is shallowly embedded over the real numbers:
JavaScript number arithmetic is modelled by exact real arithmetic, and the
THREE.MathUtils helpers used by the two per-frame machines are translated
from the three.js sources they call into.
-/

/-- three.js MathUtils.lerp: linear interpolation, (1 - t) * x + t * y. -/
noncomputable def lerp (x y t : ℝ) : ℝ := (1 - t) * x + t * y

/-- three.js MathUtils.damp: frame-rate independent exponential damping,
lerp(x, y, 1 - exp(-lambda * dt)). Both machines call this every frame. -/
noncomputable def damp (x y lambda dt : ℝ) : ℝ :=
  lerp x y (1 - Real.exp (-lambda * dt))

/-- Damping a value that already equals its target leaves it unchanged. -/
theorem damp_self (x lambda dt : ℝ) : damp x x lambda dt = x := by
  unfold damp lerp; ring

/-- The decay factor exp(-lambda * dt) is at most one when lambda, dt are
nonnegative. -/
theorem exp_decay_le_one (lambda dt : ℝ) (h1 : 0 ≤ lambda) (h2 : 0 ≤ dt) :
    Real.exp (-lambda * dt) ≤ 1 := by
  have h : -lambda * dt ≤ 0 := by nlinarith
  calc Real.exp (-lambda * dt) ≤ Real.exp 0 := Real.exp_le_exp.mpr h
    _ = 1 := Real.exp_zero

/-- An upper bound shared by the current value and the target is preserved
by one damping step (the update is a convex combination of the two). -/
theorem damp_le (c t B lambda dt : ℝ) (hc : c ≤ B) (ht : t ≤ B)
    (hlam : 0 ≤ lambda) (hdt : 0 ≤ dt) : damp c t lambda dt ≤ B := by
  unfold damp lerp
  have hE0 : 0 < Real.exp (-lambda * dt) := Real.exp_pos _
  have hE1 : Real.exp (-lambda * dt) ≤ 1 := exp_decay_le_one lambda dt hlam hdt
  nlinarith

/-- A lower bound shared by the current value and the target is preserved
by one damping step. -/
theorem le_damp (c t B lambda dt : ℝ) (hc : B ≤ c) (ht : B ≤ t)
    (hlam : 0 ≤ lambda) (hdt : 0 ≤ dt) : B ≤ damp c t lambda dt := by
  unfold damp lerp
  have hE0 : 0 < Real.exp (-lambda * dt) := Real.exp_pos _
  have hE1 : Real.exp (-lambda * dt) ≤ 1 := exp_decay_le_one lambda dt hlam hdt
  nlinarith

/-- C1: the per-frame damping update used by both machines equals the
closed form target + (current - target) * exp(-rate * dt), and consequently
one step of duration a + b equals a step of duration a followed by a step
of duration b toward the same fixed target (exactly, in real arithmetic). -/
theorem damp_closed_form_and_composes (c t rate a b : ℝ)
    (hrate : 0 < rate) (ha : 0 ≤ a) (hb : 0 ≤ b) :
    damp c t rate (a + b) = t + (c - t) * Real.exp (-rate * (a + b)) ∧
    damp c t rate (a + b) = damp (damp c t rate a) t rate b := by
  constructor
  · unfold damp lerp; ring
  · unfold damp lerp
    have h : Real.exp (-rate * (a + b)) =
        Real.exp (-rate * a) * Real.exp (-rate * b) := by
      rw [← Real.exp_add]; ring_nf
    rw [h]; ring

/-- Witness for C1 at concrete inputs. -/
theorem damp_closed_form_and_composes_witness :
    damp 5 2 1 ((1 : ℝ) / 2 + 1 / 3) =
      2 + (5 - 2) * Real.exp (-1 * ((1 : ℝ) / 2 + 1 / 3)) ∧
    damp 5 2 1 ((1 : ℝ) / 2 + 1 / 3) =
      damp (damp 5 2 1 ((1 : ℝ) / 2)) 2 1 ((1 : ℝ) / 3) :=
  damp_closed_form_and_composes 5 2 1 (1 / 2) (1 / 3) (by norm_num)
    (by norm_num) (by norm_num)

/-- A 3D vector, standing in for THREE.Vector3. -/
structure Vec3 where
  x : ℝ
  y : ℝ
  z : ℝ

/-- Degree-to-radian factor used by latLongToVec.js. -/
noncomputable def DEG2RAD : ℝ := Real.pi / 180

/-- src/utils/latLongToVec.js latLonToVec3 (the same function is inlined at
the top of wonderLabel.jsx): spherical-to-Cartesian projection, Y up,
longitude offset by 180 degrees to match the texture seam. -/
noncomputable def latLonToVec3 (lat lon radius altitude : ℝ) : Vec3 :=
  let r := radius + altitude
  let phi := (90 - lat) * DEG2RAD
  let theta := (lon + 180) * DEG2RAD
  { x := -r * Real.sin phi * Real.cos theta
    y := r * Real.cos phi
    z := r * Real.sin phi * Real.sin theta }

/-- C4: the projection equals the reference formula; the north pole maps to
(0, r, 0) for every longitude; and the (0, 0) point lies on the sphere of
radius r. -/
theorem latLonToVec3_spec :
    (∀ lat lon radius altitude : ℝ,
      latLonToVec3 lat lon radius altitude =
        { x := -(radius + altitude) * Real.sin ((90 - lat) * (Real.pi / 180)) *
              Real.cos ((lon + 180) * (Real.pi / 180))
          y := (radius + altitude) * Real.cos ((90 - lat) * (Real.pi / 180))
          z := (radius + altitude) * Real.sin ((90 - lat) * (Real.pi / 180)) *
              Real.sin ((lon + 180) * (Real.pi / 180)) }) ∧
    (∀ r lon : ℝ, latLonToVec3 90 lon r 0 = { x := 0, y := r, z := 0 }) ∧
    (∀ r : ℝ,
      (latLonToVec3 0 0 r 0).x ^ 2 + (latLonToVec3 0 0 r 0).y ^ 2 +
        (latLonToVec3 0 0 r 0).z ^ 2 = r ^ 2) := by
  refine ⟨fun lat lon radius altitude => rfl, fun r lon => ?_, fun r => ?_⟩
  · have hphi : ((90 : ℝ) - 90) * DEG2RAD = 0 := by norm_num
    simp only [latLonToVec3, hphi, Real.sin_zero, Real.cos_zero]
    simp [mul_comm]
  · have hphi : ((90 : ℝ) - 0) * DEG2RAD = Real.pi / 2 := by
      unfold DEG2RAD; ring
    have htheta : ((0 : ℝ) + 180) * DEG2RAD = Real.pi := by
      unfold DEG2RAD; ring
    simp only [latLonToVec3, hphi, htheta, Real.sin_pi_div_two,
      Real.cos_pi_div_two, Real.sin_pi, Real.cos_pi]
    ring

/-- three.js MathUtils.clamp: max(min, min(max, value)). -/
noncomputable def clampTM (value minv maxv : ℝ) : ℝ := max minv (min maxv value)

/-- Layout constant gapY of wonderLabel.jsx. -/
noncomputable def gapY : ℝ := 0.06

/-- Layout constant bgPadX of wonderLabel.jsx. -/
noncomputable def bgPadX : ℝ := 0.02

/-- Layout constant bgPadTop of wonderLabel.jsx. -/
noncomputable def bgPadTop : ℝ := 0.02

/-- Layout constant bgPadBottom of wonderLabel.jsx. -/
noncomputable def bgPadBottom : ℝ := 0.05

/-- Top edge of the image below the text block (wonderLabel.jsx imageTopY):
-(baseH / 2 + gapY). -/
noncomputable def imageTopY (baseH : ℝ) : ℝ := -(baseH / 2 + gapY)

/-- Fixed image center position (wonderLabel.jsx imgYFixed):
imageTopY - imgH / 2. The init-state effect of the callout is keyed on
this value. -/
noncomputable def imgYFixed (baseH imgH : ℝ) : ℝ := imageTopY baseH - imgH / 2

/-- Per-frame environment captured by the callout animation closure:
the hover flag and the measured layout quantities (clamped image width,
derived image height, collapsed background size). -/
structure CalloutEnv where
  hovered : Bool
  imgW : ℝ
  imgH : ℝ
  bgBaseW : ℝ
  bgBaseH : ℝ

/-- Mutable animation state of one callout: the five damped scalars held in
refs plus the background mesh transform written each frame. The source
field named open is called openAmt here because open is a Lean keyword. -/
structure CalloutState where
  openAmt : ℝ
  imgOpacity : ℝ
  imgScale : ℝ
  titleScale : ℝ
  lineOpacity : ℝ
  bgScaleY : ℝ
  bgPosY : ℝ
  bgScaleX : ℝ

/-- The useFrame body of wonderLabel.jsx, translated statement by
statement. The JavaScript guards scale.y || 1, position.y || 0 and
scale.x || 1 (which replace a falsy 0 by the given default) are modelled
by an explicit zero test. -/
noncomputable def calloutFrame (env : CalloutEnv) (dt : ℝ) (s : CalloutState) :
    CalloutState :=
  let targetOpen : ℝ := if env.hovered then 1 else 0
  let openN := damp s.openAmt targetOpen 6 dt
  let imgOpacityN := damp s.imgOpacity openN 10 dt
  let imgScaleN := damp s.imgScale openN 10 dt
  let targetScale : ℝ := if env.hovered then 1.22 else 1
  let titleScaleN := damp s.titleScale targetScale 8 dt
  let extraH := (env.imgH + gapY + bgPadBottom) * openN
  let scaleY := (env.bgBaseH + extraH) / env.bgBaseH
  let bgScaleYN := damp (if s.bgScaleY = 0 then 1 else s.bgScaleY) scaleY 10 dt
  let bgPosYN := damp (if s.bgPosY = 0 then 0 else s.bgPosY) (-(extraH / 2)) 10 dt
  let neededW := max env.bgBaseW (env.imgW + bgPadX * 2)
  let widenedW := lerp env.bgBaseW neededW openN
  let scaleX := widenedW / env.bgBaseW
  let bgScaleXN := damp (if s.bgScaleX = 0 then 1 else s.bgScaleX) scaleX 10 dt
  let targetLineOpacity : ℝ := if env.hovered then 0.45 else 0.9
  let lineOpacityN := damp s.lineOpacity targetLineOpacity 8 dt
  { openAmt := openN
    imgOpacity := imgOpacityN
    imgScale := imgScaleN
    titleScale := titleScaleN
    lineOpacity := lineOpacityN
    bgScaleY := bgScaleYN
    bgPosY := bgPosYN
    bgScaleX := bgScaleXN }

/-- C3: every frame drives the five damped quantities toward their
hover-dependent targets at the stated rates, with imageOpacity and
imageScale chained to the openAmount value already updated this frame. -/
theorem calloutFrame_five_damped_quantities (env : CalloutEnv) (dt : ℝ)
    (s : CalloutState) :
    (calloutFrame env dt s).openAmt =
      damp s.openAmt (if env.hovered then 1 else 0) 6 dt ∧
    (calloutFrame env dt s).imgOpacity =
      damp s.imgOpacity (calloutFrame env dt s).openAmt 10 dt ∧
    (calloutFrame env dt s).imgScale =
      damp s.imgScale (calloutFrame env dt s).openAmt 10 dt ∧
    (calloutFrame env dt s).titleScale =
      damp s.titleScale (if env.hovered then 1.22 else 1) 8 dt ∧
    (calloutFrame env dt s).lineOpacity =
      damp s.lineOpacity (if env.hovered then 0.45 else 0.9) 8 dt :=
  ⟨rfl, rfl, rfl, rfl, rfl⟩

/-- C8: with openAmount in [0,1], a nonnegative image height and positive
base sizes, the height target baseH + (imgH + gapY + bgPadBottom) * open
stays at or above the base height, the widened width stays at or above the
base width, and the extra damping step on the mesh scale preserves scale
factors of at least one, hence panel width and height at or above the
collapsed base size. -/
theorem panel_never_below_base (env : CalloutEnv) (dt : ℝ) (s : CalloutState)
    (hopen0 : 0 ≤ s.openAmt) (hopen1 : s.openAmt ≤ 1)
    (himgH : 0 ≤ env.imgH) (hW : 0 < env.bgBaseW) (hH : 0 < env.bgBaseH)
    (hdt : 0 ≤ dt) (hSY : 1 ≤ s.bgScaleY) (hSX : 1 ≤ s.bgScaleX) :
    env.bgBaseH ≤ env.bgBaseH +
      (env.imgH + gapY + bgPadBottom) * (calloutFrame env dt s).openAmt ∧
    env.bgBaseW ≤ lerp env.bgBaseW (max env.bgBaseW (env.imgW + bgPadX * 2))
      (calloutFrame env dt s).openAmt ∧
    1 ≤ (calloutFrame env dt s).bgScaleY ∧
    1 ≤ (calloutFrame env dt s).bgScaleX ∧
    env.bgBaseH ≤ (calloutFrame env dt s).bgScaleY * env.bgBaseH ∧
    env.bgBaseW ≤ (calloutFrame env dt s).bgScaleX * env.bgBaseW := by
  have hgap : (0 : ℝ) ≤ gapY := by unfold gapY; norm_num
  have hpadB : (0 : ℝ) ≤ bgPadBottom := by unfold bgPadBottom; norm_num
  have hopenN0 : 0 ≤ (calloutFrame env dt s).openAmt := by
    have := le_damp s.openAmt (if env.hovered then 1 else 0) 0 6 dt hopen0
      (by split <;> norm_num) (by norm_num) hdt
    simpa [calloutFrame] using this
  have hopenN1 : (calloutFrame env dt s).openAmt ≤ 1 := by
    have := damp_le s.openAmt (if env.hovered then 1 else 0) 1 6 dt hopen1
      (by split <;> norm_num) (by norm_num) hdt
    simpa [calloutFrame] using this
  have hextra : 0 ≤ (env.imgH + gapY + bgPadBottom) *
      (calloutFrame env dt s).openAmt := by positivity
  have hHtarget : env.bgBaseH ≤ env.bgBaseH +
      (env.imgH + gapY + bgPadBottom) * (calloutFrame env dt s).openAmt := by
    linarith
  have hneeded : env.bgBaseW ≤ max env.bgBaseW (env.imgW + bgPadX * 2) :=
    le_max_left _ _
  have hWtarget : env.bgBaseW ≤
      lerp env.bgBaseW (max env.bgBaseW (env.imgW + bgPadX * 2))
        (calloutFrame env dt s).openAmt := by
    unfold lerp
    nlinarith [hneeded, hopenN0, hopenN1]
  have hSYne : s.bgScaleY ≠ 0 := by intro h; rw [h] at hSY; norm_num at hSY
  have hSXne : s.bgScaleX ≠ 0 := by intro h; rw [h] at hSX; norm_num at hSX
  have hscaleYtarget : 1 ≤ (env.bgBaseH +
      (env.imgH + gapY + bgPadBottom) * (calloutFrame env dt s).openAmt) /
      env.bgBaseH := by
    rw [le_div_iff hH]; linarith
  have hscaleXtarget : 1 ≤
      lerp env.bgBaseW (max env.bgBaseW (env.imgW + bgPadX * 2))
        (calloutFrame env dt s).openAmt / env.bgBaseW := by
    rw [le_div_iff hW]; linarith
  have hSYnext : 1 ≤ (calloutFrame env dt s).bgScaleY := by
    have := le_damp (if s.bgScaleY = 0 then 1 else s.bgScaleY)
      ((env.bgBaseH + (env.imgH + gapY + bgPadBottom) *
        (calloutFrame env dt s).openAmt) / env.bgBaseH) 1 10 dt
      (by rw [if_neg hSYne]; exact hSY) hscaleYtarget (by norm_num) hdt
    simpa [calloutFrame] using this
  have hSXnext : 1 ≤ (calloutFrame env dt s).bgScaleX := by
    have := le_damp (if s.bgScaleX = 0 then 1 else s.bgScaleX)
      (lerp env.bgBaseW (max env.bgBaseW (env.imgW + bgPadX * 2))
        (calloutFrame env dt s).openAmt / env.bgBaseW) 1 10 dt
      (by rw [if_neg hSXne]; exact hSX) hscaleXtarget (by norm_num) hdt
    simpa [calloutFrame] using this
  refine ⟨hHtarget, hWtarget, hSYnext, hSXnext, ?_, ?_⟩
  · nlinarith
  · nlinarith

/-- Witness for C8 at concrete inputs. -/
theorem panel_never_below_base_witness :
    (1 : ℝ) ≤ 1 + (((1 : ℝ) / 2) + gapY + bgPadBottom) *
      (calloutFrame ⟨true, 9 / 10, 1 / 2, 1, 1⟩ 1
        ⟨0, 0, 0, 1, 9 / 10, 1, 0, 1⟩).openAmt ∧
    (1 : ℝ) ≤ lerp 1 (max 1 ((9 : ℝ) / 10 + bgPadX * 2))
      (calloutFrame ⟨true, 9 / 10, 1 / 2, 1, 1⟩ 1
        ⟨0, 0, 0, 1, 9 / 10, 1, 0, 1⟩).openAmt ∧
    1 ≤ (calloutFrame ⟨true, 9 / 10, 1 / 2, 1, 1⟩ 1
        ⟨0, 0, 0, 1, 9 / 10, 1, 0, 1⟩).bgScaleY ∧
    1 ≤ (calloutFrame ⟨true, 9 / 10, 1 / 2, 1, 1⟩ 1
        ⟨0, 0, 0, 1, 9 / 10, 1, 0, 1⟩).bgScaleX ∧
    (1 : ℝ) ≤ (calloutFrame ⟨true, 9 / 10, 1 / 2, 1, 1⟩ 1
        ⟨0, 0, 0, 1, 9 / 10, 1, 0, 1⟩).bgScaleY * 1 ∧
    (1 : ℝ) ≤ (calloutFrame ⟨true, 9 / 10, 1 / 2, 1, 1⟩ 1
        ⟨0, 0, 0, 1, 9 / 10, 1, 0, 1⟩).bgScaleX * 1 :=
  panel_never_below_base ⟨true, 9 / 10, 1 / 2, 1, 1⟩ 1
    ⟨0, 0, 0, 1, 9 / 10, 1, 0, 1⟩ (by norm_num) (by norm_num) (by norm_num)
    (by norm_num) (by norm_num) (by norm_num) (by norm_num) (by norm_num)

/-- The init-state effect of wonderLabel.jsx (dependency array imgYFixed):
resets all five animated refs and the background mesh transform to the
collapsed values. -/
noncomputable def calloutReset : CalloutState :=
  { openAmt := 0
    imgOpacity := 0
    imgScale := 0
    titleScale := 1
    lineOpacity := 0.9
    bgScaleY := 1
    bgPosY := 0
    bgScaleX := 1 }

/-- Reaction of the callout to a render in which the memoised imgYFixed
value did or did not change: the init-state effect reruns exactly when it
changed. The hover flag is not an input: the effect never reads it. -/
noncomputable def calloutLayoutEffect (layoutChanged : Bool)
    (s : CalloutState) : CalloutState :=
  if layoutChanged then calloutReset else s

/-- C10: whenever the computed image layout changes, every animated
quantity and the panel transform are reset to the collapsed initial values,
whatever the previous state (and therefore also while the pointer is
hovering, since the effect does not read the hover flag); the memo key
imgYFixed reacts to any change of the measured image height. -/
theorem layout_change_resets_animation (s : CalloutState) :
    calloutLayoutEffect true s = calloutReset ∧
    calloutReset.openAmt = 0 ∧
    calloutReset.imgOpacity = 0 ∧
    calloutReset.imgScale = 0 ∧
    calloutReset.titleScale = 1 ∧
    calloutReset.lineOpacity = 0.9 ∧
    calloutReset.bgScaleX = 1 ∧
    calloutReset.bgScaleY = 1 ∧
    calloutReset.bgPosY = 0 ∧
    (∀ baseH h1 h2 : ℝ,
      imgYFixed baseH h1 - imgYFixed baseH h2 = (h2 - h1) / 2) ∧
    (∀ s2 : CalloutState, calloutLayoutEffect false s2 = s2) := by
  refine ⟨rfl, rfl, rfl, rfl, rfl, rfl, rfl, rfl, rfl, fun baseH h1 h2 => ?_,
    fun s2 => rfl⟩
  unfold imgYFixed imageTopY
  ring

/-- JavaScript division restricted to its finiteness behaviour: none marks
a division by zero, whose JavaScript result (Infinity or NaN) is not a
finite number. Used to model the aspect-ratio pipeline of wonderLabel.jsx
over exact rationals. -/
def jsDiv (a b : ℚ) : Option ℚ := if b = 0 then none else some (a / b)

/-- three.js MathUtils.clamp over the rationals, for the image width
computation imgW = clamp(baseSize[0], minImgW, maxImgW). -/
def clampQ (value minv maxv : ℚ) : ℚ := max minv (min maxv value)

/-- The imgAspect state of wonderLabel.jsx: 16 / 9 until the image asset
has loaded, then naturalWidth / naturalHeight as set by the onload
handler. -/
def imgAspectState (loaded : Option (ℚ × ℚ)) : Option ℚ :=
  match loaded with
  | none => some (16 / 9)
  | some (w, h) => jsDiv w h

/-- The derived image height of wonderLabel.jsx:
imgH = clamp(baseSize[0], 0.8, 1) / imgAspect. -/
def imgHeight (baseW : ℚ) (loaded : Option (ℚ × ℚ)) : Option ℚ :=
  (imgAspectState loaded).bind fun aspect =>
    jsDiv (clampQ baseW (4 / 5) 1) aspect

/-- Counterexample to C9 as stated: a loaded image with natural width 0 and
natural height 1 yields aspect ratio 0, and the image-height computation
then divides by zero (Infinity in JavaScript, not a finite number). -/
theorem imgHeight_div_by_zero_cex : imgHeight (3 / 5) (some (0, 1)) = none := by
  simp [imgHeight, imgAspectState, jsDiv]

/-- C9 amended: before the image loads the default 16:9 aspect is used and
no division by zero occurs; for every loaded image whose natural width and
height are both nonzero the derived image height is a well-defined finite
number; but a loaded image with zero natural width yields aspect 0 and the
height computation divides by zero. -/
theorem imgHeight_welldef (baseW w h : ℚ) (hw : w ≠ 0) (hh : h ≠ 0) :
    imgHeight baseW none = some (clampQ baseW (4 / 5) 1 / (16 / 9)) ∧
    (imgHeight baseW (some (w, h))).isSome = true := by
  constructor
  · simp [imgHeight, imgAspectState, jsDiv]
  · have haspect : w / h ≠ 0 := div_ne_zero hw hh
    simp [imgHeight, imgAspectState, jsDiv, hh, haspect]

/-- Witness for the amended C9 at concrete inputs. -/
theorem imgHeight_welldef_witness :
    imgHeight (1 / 2) none = some (clampQ (1 / 2) (4 / 5) 1 / (16 / 9)) ∧
    (imgHeight (1 / 2) (some (4, 3))).isSome = true :=
  imgHeight_welldef (1 / 2) 4 3 (by norm_num) (by norm_num)

/-- Lifecycle phase of the loading overlay (loadingOverlay.jsx phase ref). -/
inductive Phase where
  | loading
  | hold
  | fading
  | done
deriving DecidableEq, Repr

/-- Configuration of the overlay, set once at mount (loadingOverlay.jsx
props used by the state machine; rendering-only props are omitted). -/
structure OverlayCfg where
  delay : ℝ
  fade : ℝ
  smoothFactor : ℝ
  loadingCap : ℝ
  unmountOnEnd : Bool

/-- Per-frame inputs of the overlay machine: the polled loader signal
(active, progress), the wall clock (performance.now, in milliseconds) and
the frame delta (seconds). -/
structure OverlayInput where
  active : Bool
  progress : ℝ
  now : ℝ
  dt : ℝ

/-- Accumulated state of the overlay machine: the phase ref, the hold
deadline ref, the alpha React state, the smoothed displayRef and the done
React state. The display React state mirrors displayRef for rendering only
and never feeds back into the dynamics, so it is not modelled. -/
structure OverlayState where
  phase : Phase
  holdUntil : ℝ
  alpha : ℝ
  display : ℝ
  doneFlag : Bool

/-- Initial overlay state: phase loading, alpha 1, display 0. -/
noncomputable def overlayInit : OverlayState :=
  { phase := Phase.loading, holdUntil := 0, alpha := 1, display := 0,
    doneFlag := false }

/-- The React effect of loadingOverlay.jsx keyed on the active signal. The
two sequential guards of the source are mutually exclusive on active, so
they collapse to one case split: while inactive a loading phase enters
hold and records the deadline now + delay * 1000; while active any
non-loading phase returns to loading. -/
noncomputable def overlayEffect (cfg : OverlayCfg) (i : OverlayInput)
    (s : OverlayState) : OverlayState :=
  if i.active = true then
    (if s.phase ≠ Phase.loading then { s with phase := Phase.loading } else s)
  else
    (if s.phase = Phase.loading then
      { s with phase := Phase.hold, holdUntil := i.now + cfg.delay * 1000 }
    else s)

/-- Progress smoothing of the useFrame body: displayRef is damped toward
min(loadingCap, max(progress / 100, displayRef)) while active, toward 1
once inactive. -/
noncomputable def overlayDisplayNext (cfg : OverlayCfg) (i : OverlayInput)
    (s : OverlayState) : ℝ :=
  damp s.display
    (if i.active = true then
      min cfg.loadingCap (max (i.progress / 100) s.display)
    else 1)
    cfg.smoothFactor i.dt

/-- The hold-to-fading check of the useFrame body: a hold phase becomes
fading once now has reached the recorded deadline. -/
noncomputable def overlayPhase1 (i : OverlayInput) (s : OverlayState) : Phase :=
  if s.phase = Phase.hold ∧ i.now ≥ s.holdUntil then Phase.fading else s.phase

/-- Damp factor for the alpha animation: 3 / fade for a positive fade
duration, 9999 (snap) otherwise. -/
noncomputable def overlayK (cfg : OverlayCfg) : ℝ :=
  if cfg.fade > 0 then 3 / cfg.fade else 9999

/-- The alpha value computed this frame: damped toward 1 while the
(post hold-check) phase is loading or hold, toward 0 otherwise. -/
noncomputable def overlayAlphaLocal (cfg : OverlayCfg) (i : OverlayInput)
    (s : OverlayState) : ℝ :=
  damp s.alpha
    (if overlayPhase1 i s = Phase.loading ∨ overlayPhase1 i s = Phase.hold
      then 1 else 0)
    (overlayK cfg) i.dt

/-- The useFrame body of loadingOverlay.jsx: progress smoothing, the hold
deadline check, the alpha damping with its 0.0001 write threshold on the
React alpha state, and the end condition entering done (setting the done
state when unmountOnEnd is configured). -/
noncomputable def overlayFrame (cfg : OverlayCfg) (i : OverlayInput)
    (s : OverlayState) : OverlayState :=
  { phase :=
      if overlayPhase1 i s = Phase.fading ∧ overlayAlphaLocal cfg i s < 0.01
        then Phase.done else overlayPhase1 i s
    holdUntil := s.holdUntil
    alpha :=
      if |overlayAlphaLocal cfg i s - s.alpha| > 0.0001
        then overlayAlphaLocal cfg i s else s.alpha
    display := overlayDisplayNext cfg i s
    doneFlag :=
      if overlayPhase1 i s = Phase.fading ∧ overlayAlphaLocal cfg i s < 0.01 ∧
          cfg.unmountOnEnd = true
        then true else s.doneFlag }

/-- One modelled step of the overlay component: the effect reacts to the
polled active level, then the useFrame body runs unless the component has
already finished with unmountOnEnd set, in which case the frame body
returns early (the effect still runs: the component stays mounted while
rendering null). -/
noncomputable def overlayStep (cfg : OverlayCfg) (i : OverlayInput)
    (s : OverlayState) : OverlayState :=
  if (overlayEffect cfg i s).doneFlag = true ∧ cfg.unmountOnEnd = true then
    overlayEffect cfg i s
  else overlayFrame cfg i (overlayEffect cfg i s)

/-- Iterated overlay execution from the initial state under one constant
per-frame input. -/
noncomputable def overlayRun (cfg : OverlayCfg) (i : OverlayInput) :
    ℕ → OverlayState
  | 0 => overlayInit
  | n + 1 => overlayStep cfg i (overlayRun cfg i n)

/-- Number of frames of a trace on which the phase transitions into done
(the event on which the finished signal fires). -/
noncomputable def doneEntries (cfg : OverlayCfg) :
    OverlayState → List OverlayInput → ℕ
  | _, [] => 0
  | s, i :: rest =>
    (if s.phase ≠ Phase.done ∧ (overlayStep cfg i s).phase = Phase.done
      then 1 else 0) + doneEntries cfg (overlayStep cfg i s) rest

/-- Default configuration values of loadingOverlay.jsx. -/
noncomputable def overlayDefaults : OverlayCfg :=
  { delay := 0.6, fade := 1.6, smoothFactor := 8, loadingCap := 0.96,
    unmountOnEnd := true }

/-- The claimed transition relation, written from the spec wording: any
state returns to loading while active; loading enters hold the instant
active is false; hold becomes fading once the deadline is reached; fading
becomes done once the computed alpha is below 0.01. -/
def claimReentry (p : Phase) (active : Bool) : Phase :=
  if active then Phase.loading
  else if p = Phase.loading then Phase.hold else p

/-- Claimed hold-to-fading transition, from the spec wording. -/
def claimHoldFade (p : Phase) (deadlineReached : Bool) : Phase :=
  if p = Phase.hold ∧ deadlineReached = true then Phase.fading else p

/-- Claimed fading-to-done transition, from the spec wording. -/
def claimFadeDone (p : Phase) (alphaSmall : Bool) : Phase :=
  if p = Phase.fading ∧ alphaSmall = true then Phase.done else p

/-- The claimed per-frame phase relation of C2, assembled from its three
transition rules. -/
def claimPhaseStep (p : Phase) (active deadlineReached alphaSmall : Bool) :
    Phase :=
  claimFadeDone (claimHoldFade (claimReentry p active) deadlineReached)
    alphaSmall

/-- The effect never changes the alpha state. -/
theorem overlayEffect_alpha (cfg : OverlayCfg) (i : OverlayInput)
    (s : OverlayState) : (overlayEffect cfg i s).alpha = s.alpha := by
  unfold overlayEffect; split_ifs <;> rfl

/-- The effect never changes the smoothed display value. -/
theorem overlayEffect_display (cfg : OverlayCfg) (i : OverlayInput)
    (s : OverlayState) : (overlayEffect cfg i s).display = s.display := by
  unfold overlayEffect; split_ifs <;> rfl

/-- The effect never changes the done state. -/
theorem overlayEffect_doneFlag (cfg : OverlayCfg) (i : OverlayInput)
    (s : OverlayState) : (overlayEffect cfg i s).doneFlag = s.doneFlag := by
  unfold overlayEffect; split_ifs <;> rfl

/-- Phase after the effect: loading while active, hold for an inactive
loading phase, otherwise unchanged. -/
theorem overlayEffect_phase (cfg : OverlayCfg) (i : OverlayInput)
    (s : OverlayState) :
    (overlayEffect cfg i s).phase =
      if i.active = true then Phase.loading
      else if s.phase = Phase.loading then Phase.hold else s.phase := by
  unfold overlayEffect; split_ifs <;> simp_all

/-- Hold deadline after the effect: stamped to now + delay * 1000 exactly
when an inactive loading phase enters hold. -/
theorem overlayEffect_holdUntil (cfg : OverlayCfg) (i : OverlayInput)
    (s : OverlayState) :
    (overlayEffect cfg i s).holdUntil =
      if i.active = false ∧ s.phase = Phase.loading then
        i.now + cfg.delay * 1000
      else s.holdUntil := by
  unfold overlayEffect; split_ifs <;> simp_all

/-- A frozen step (done with unmountOnEnd) only runs the effect. -/
theorem overlayStep_frozen (cfg : OverlayCfg) (i : OverlayInput)
    (s : OverlayState) (hdone : s.doneFlag = true)
    (hum : cfg.unmountOnEnd = true) :
    overlayStep cfg i s = overlayEffect cfg i s := by
  unfold overlayStep
  rw [overlayEffect_doneFlag, if_pos ⟨hdone, hum⟩]

/-- A step that is not frozen runs the effect and then the frame body. -/
theorem overlayStep_not_frozen (cfg : OverlayCfg) (i : OverlayInput)
    (s : OverlayState) (h : ¬(s.doneFlag = true ∧ cfg.unmountOnEnd = true)) :
    overlayStep cfg i s = overlayFrame cfg i (overlayEffect cfg i s) := by
  unfold overlayStep
  rw [overlayEffect_doneFlag, if_neg h]

/-- The alpha damp factor is nonnegative for any configuration. -/
theorem overlayK_nonneg (cfg : OverlayCfg) : 0 ≤ overlayK cfg := by
  unfold overlayK
  split_ifs with h
  · positivity
  · norm_num

/-- Effect under an active signal: the phase becomes loading, everything
else is unchanged. -/
theorem overlayEffect_active (cfg : OverlayCfg) (i : OverlayInput)
    (s : OverlayState) (ha : i.active = true) :
    overlayEffect cfg i s = { s with phase := Phase.loading } := by
  unfold overlayEffect
  rw [ha]
  split_ifs with h <;> first | rfl | (cases s; simp_all)

/-- Effect on an inactive loading phase: hold is entered and the deadline
is stamped. -/
theorem overlayEffect_inactive_loading (cfg : OverlayCfg) (i : OverlayInput)
    (s : OverlayState) (ha : i.active = false) (hp : s.phase = Phase.loading) :
    overlayEffect cfg i s =
      { s with phase := Phase.hold, holdUntil := i.now + cfg.delay * 1000 } := by
  unfold overlayEffect
  rw [ha, hp]
  simp

/-- Effect on an inactive non-loading phase: no change. -/
theorem overlayEffect_inactive_other (cfg : OverlayCfg) (i : OverlayInput)
    (s : OverlayState) (ha : i.active = false) (hp : s.phase ≠ Phase.loading) :
    overlayEffect cfg i s = s := by
  unfold overlayEffect
  rw [ha]
  simp [hp]

/-- C2 amended: the phase variable follows the claimed transition relation
on every step on which the overlay has not already finished with
unmountOnEnd set; once done has been reached with unmountOnEnd set, the
frame body returns early, so only the effect transitions (re-entry to
loading while active, loading to hold with a fresh deadline while
inactive) still occur and the hold-to-fading and fading-to-done rules are
frozen. -/
theorem overlay_phase_follows_relation (cfg : OverlayCfg) (i : OverlayInput)
    (s : OverlayState) :
    (overlayStep cfg i s).phase =
      if s.doneFlag = true ∧ cfg.unmountOnEnd = true then
        (overlayEffect cfg i s).phase
      else
        claimPhaseStep s.phase i.active
          (decide (i.now ≥ (overlayEffect cfg i s).holdUntil))
          (decide (overlayAlphaLocal cfg i (overlayEffect cfg i s) < 0.01)) := by
  by_cases hfz : s.doneFlag = true ∧ cfg.unmountOnEnd = true
  · rw [if_pos hfz, overlayStep_frozen cfg i s hfz.1 hfz.2]
  · rw [if_neg hfz, overlayStep_not_frozen cfg i s hfz]
    have h1 : claimReentry s.phase i.active = (overlayEffect cfg i s).phase := by
      rw [overlayEffect_phase]
      unfold claimReentry
      rfl
    have h2 : claimHoldFade (overlayEffect cfg i s).phase
        (decide (i.now ≥ (overlayEffect cfg i s).holdUntil)) =
        overlayPhase1 i (overlayEffect cfg i s) := by
      unfold claimHoldFade overlayPhase1
      simp only [decide_eq_true_eq]
    unfold claimPhaseStep
    rw [h1, h2]
    unfold claimFadeDone overlayFrame
    simp only [decide_eq_true_eq]

/-- Numeric bound: the decay factor of an 8 per second rate over one
second is below 1/25, so one inactive one-second frame pushes the display
value above the 0.96 loading cap. -/
theorem exp_neg_eight_lt : Real.exp (-8 * (1 : ℝ)) < 1 / 25 := by
  rw [show (-8 * (1 : ℝ)) = -8 by norm_num]
  have h4 : (4 : ℝ) + 1 < Real.exp 4 := Real.add_one_lt_exp (by norm_num)
  have hpos4 : (0 : ℝ) < Real.exp 4 := Real.exp_pos 4
  have h8 : (25 : ℝ) < Real.exp 8 := by
    have hadd : Real.exp ((4 : ℝ) + 4) = Real.exp 4 * Real.exp 4 :=
      Real.exp_add 4 4
    have h44 : ((4 : ℝ) + 4) = 8 := by norm_num
    rw [h44] at hadd
    nlinarith
  have hmul : Real.exp (-8 : ℝ) * Real.exp 8 = 1 := by
    rw [← Real.exp_add]
    norm_num
  have hpos : (0 : ℝ) < Real.exp (-8 : ℝ) := Real.exp_pos _
  have h1 : Real.exp (-8 : ℝ) * 25 < Real.exp (-8 : ℝ) * Real.exp 8 :=
    mul_lt_mul_of_pos_left h8 hpos
  rw [hmul] at h1
  linarith

/-- Numeric bound: the 9999 snap rate over one second decays any value in
the unit interval below the 0.01 end threshold. -/
theorem exp_neg_snap_lt : Real.exp (-9999 * (1 : ℝ)) < 0.01 := by
  rw [show (-9999 * (1 : ℝ)) = -9999 by norm_num]
  have h : (9999 : ℝ) + 1 ≤ Real.exp 9999 := Real.add_one_le_exp 9999
  have hmul : Real.exp (-9999 : ℝ) * Real.exp 9999 = 1 := by
    rw [← Real.exp_add]
    norm_num
  have hpos : (0 : ℝ) < Real.exp (-9999 : ℝ) := Real.exp_pos _
  have h1 : Real.exp (-9999 : ℝ) * 10000 ≤
      Real.exp (-9999 : ℝ) * Real.exp 9999 := by
    apply mul_le_mul_of_nonneg_left _ hpos.le
    linarith
  rw [hmul] at h1
  norm_num
  linarith

/-- The alpha state stays in the unit interval along any step with a
nonnegative frame delta. -/
theorem overlayStep_alpha_mem (cfg : OverlayCfg) (i : OverlayInput)
    (s : OverlayState) (hdt : 0 ≤ i.dt) (h0 : 0 ≤ s.alpha)
    (h1 : s.alpha ≤ 1) :
    0 ≤ (overlayStep cfg i s).alpha ∧ (overlayStep cfg i s).alpha ≤ 1 := by
  by_cases hfz : s.doneFlag = true ∧ cfg.unmountOnEnd = true
  · rw [overlayStep_frozen cfg i s hfz.1 hfz.2, overlayEffect_alpha]
    exact ⟨h0, h1⟩
  · rw [overlayStep_not_frozen cfg i s hfz]
    unfold overlayFrame
    simp only [overlayEffect_alpha]
    have htgt0 : (0 : ℝ) ≤
        (if overlayPhase1 i (overlayEffect cfg i s) = Phase.loading ∨
            overlayPhase1 i (overlayEffect cfg i s) = Phase.hold
          then (1 : ℝ) else 0) := by
      split_ifs <;> norm_num
    have htgt1 :
        (if overlayPhase1 i (overlayEffect cfg i s) = Phase.loading ∨
            overlayPhase1 i (overlayEffect cfg i s) = Phase.hold
          then (1 : ℝ) else 0) ≤ 1 := by
      split_ifs <;> norm_num
    have ha0 : 0 ≤ overlayAlphaLocal cfg i (overlayEffect cfg i s) := by
      unfold overlayAlphaLocal
      rw [overlayEffect_alpha]
      exact le_damp _ _ _ _ _ h0 htgt0 (overlayK_nonneg cfg) hdt
    have ha1 : overlayAlphaLocal cfg i (overlayEffect cfg i s) ≤ 1 := by
      unfold overlayAlphaLocal
      rw [overlayEffect_alpha]
      exact damp_le _ _ _ _ _ h1 htgt1 (overlayK_nonneg cfg) hdt
    split_ifs <;> exact ⟨by assumption, by assumption⟩

/-- C5 amended: on an active frame the smoothed display value never
decreases as long as it is at or below the loading cap, whatever the raw
progress does; a decrease on an active frame is possible only from the
states above the cap that an inactive period can produce. -/
theorem display_monotone_below_cap (cfg : OverlayCfg) (i : OverlayInput)
    (s : OverlayState) (hact : i.active = true) (hdt : 0 ≤ i.dt)
    (hsf : 0 ≤ cfg.smoothFactor) (hcap : s.display ≤ cfg.loadingCap) :
    s.display ≤ (overlayStep cfg i s).display := by
  by_cases hfz : s.doneFlag = true ∧ cfg.unmountOnEnd = true
  · rw [overlayStep_frozen cfg i s hfz.1 hfz.2, overlayEffect_display]
  · rw [overlayStep_not_frozen cfg i s hfz]
    show s.display ≤ overlayDisplayNext cfg i (overlayEffect cfg i s)
    unfold overlayDisplayNext
    rw [overlayEffect_display, hact, if_pos rfl]
    exact le_damp _ _ _ _ _ le_rfl
      (le_min hcap (le_max_right _ _)) hsf hdt

/-- Witness for the amended C5 at concrete inputs. -/
theorem display_monotone_below_cap_witness :
    overlayInit.display ≤
      (overlayStep overlayDefaults
        { active := true, progress := 50, now := 0, dt := 1 }
        overlayInit).display :=
  display_monotone_below_cap overlayDefaults
    { active := true, progress := 50, now := 0, dt := 1 } overlayInit rfl
    (by norm_num) (by norm_num [overlayDefaults])
    (by norm_num [overlayInit, overlayDefaults])

/-- First frame of the C5 counterexample trace: loaders already report
done (inactive, progress 100) for one second. -/
noncomputable def cexInput1 : OverlayInput :=
  { active := false, progress := 100, now := 0, dt := 1 }

/-- Second frame of the C5 counterexample trace: loading re-activates with
raw progress still at 100 (the raw input did not decrease). -/
noncomputable def cexInput2 : OverlayInput :=
  { active := true, progress := 100, now := 1, dt := 1 }

/-- Counterexample to C5 as stated: one inactive second damps the display
value above the 0.96 loading cap; on the next frame active is true again
and raw progress is unchanged at 100, yet the display value decreases
(toward the cap). -/
theorem display_decreases_while_active_cex :
    (96 : ℝ) / 100 <
      (overlayStep overlayDefaults cexInput1 overlayInit).display ∧
    (overlayStep overlayDefaults cexInput2
        (overlayStep overlayDefaults cexInput1 overlayInit)).display <
      (overlayStep overlayDefaults cexInput1 overlayInit).display := by
  have hE : Real.exp (-8 * (1 : ℝ)) < 1 / 25 := exp_neg_eight_lt
  have hEpos : (0 : ℝ) < Real.exp (-8 * (1 : ℝ)) := Real.exp_pos _
  have hnotfz1 : ¬(overlayInit.doneFlag = true ∧
      overlayDefaults.unmountOnEnd = true) := by
    simp [overlayInit]
  have hstep1 : overlayStep overlayDefaults cexInput1 overlayInit =
      overlayFrame overlayDefaults cexInput1
        (overlayEffect overlayDefaults cexInput1 overlayInit) :=
    overlayStep_not_frozen _ _ _ hnotfz1
  have heff1 : overlayEffect overlayDefaults cexInput1 overlayInit =
      { overlayInit with
        phase := Phase.hold
        holdUntil := cexInput1.now + overlayDefaults.delay * 1000 } :=
    overlayEffect_inactive_loading _ _ _ rfl rfl
  have hd1 : (overlayStep overlayDefaults cexInput1 overlayInit).display =
      damp 0 1 8 1 := by
    rw [hstep1]
    show overlayDisplayNext overlayDefaults cexInput1
        (overlayEffect overlayDefaults cexInput1 overlayInit) = damp 0 1 8 1
    unfold overlayDisplayNext
    rw [overlayEffect_display]
    norm_num [cexInput1, overlayInit, overlayDefaults]
  have hd1v : damp (0 : ℝ) 1 8 1 = 1 - Real.exp (-8 * 1) := by
    unfold damp lerp; ring
  have hp1 : overlayPhase1 cexInput1
      (overlayEffect overlayDefaults cexInput1 overlayInit) = Phase.hold := by
    unfold overlayPhase1
    rw [heff1]
    norm_num [cexInput1, overlayInit, overlayDefaults]
  have hdf1 : (overlayStep overlayDefaults cexInput1 overlayInit).doneFlag =
      false := by
    rw [hstep1]
    show (if overlayPhase1 cexInput1
          (overlayEffect overlayDefaults cexInput1 overlayInit) =
          Phase.fading ∧ _ ∧ _ then true
        else (overlayEffect overlayDefaults cexInput1 overlayInit).doneFlag) =
        false
    rw [hp1, overlayEffect_doneFlag]
    simp [overlayInit]
  have hnotfz2 :
      ¬((overlayStep overlayDefaults cexInput1 overlayInit).doneFlag = true ∧
        overlayDefaults.unmountOnEnd = true) := by
    rw [hdf1]
    simp
  have hstep2 : overlayStep overlayDefaults cexInput2
      (overlayStep overlayDefaults cexInput1 overlayInit) =
      overlayFrame overlayDefaults cexInput2
        (overlayEffect overlayDefaults cexInput2
          (overlayStep overlayDefaults cexInput1 overlayInit)) :=
    overlayStep_not_frozen _ _ _ hnotfz2
  have hd1le : damp (0 : ℝ) 1 8 1 ≤ 1 := by
    rw [hd1v]
    linarith
  have hd2 : (overlayStep overlayDefaults cexInput2
      (overlayStep overlayDefaults cexInput1 overlayInit)).display =
      damp (damp 0 1 8 1) ((96 : ℝ) / 100) 8 1 := by
    rw [hstep2]
    show overlayDisplayNext overlayDefaults cexInput2
        (overlayEffect overlayDefaults cexInput2
          (overlayStep overlayDefaults cexInput1 overlayInit)) = _
    unfold overlayDisplayNext
    rw [overlayEffect_display, hd1]
    have hmax : max ((100 : ℝ) / 100) (damp 0 1 8 1) = 1 := by
      rw [show ((100 : ℝ) / 100) = 1 by norm_num]
      exact max_eq_left hd1le
    norm_num [cexInput2, overlayDefaults, hmax]
  constructor
  · rw [hd1, hd1v]
    linarith
  · rw [hd2, hd1, hd1v]
    unfold damp lerp
    nlinarith

/-- Phase written by the frame body. -/
theorem overlayFrame_phase (cfg : OverlayCfg) (i : OverlayInput)
    (s : OverlayState) :
    (overlayFrame cfg i s).phase =
      if overlayPhase1 i s = Phase.fading ∧ overlayAlphaLocal cfg i s < 0.01
        then Phase.done else overlayPhase1 i s := rfl

/-- Done state written by the frame body. -/
theorem overlayFrame_doneFlag (cfg : OverlayCfg) (i : OverlayInput)
    (s : OverlayState) :
    (overlayFrame cfg i s).doneFlag =
      if overlayPhase1 i s = Phase.fading ∧ overlayAlphaLocal cfg i s < 0.01 ∧
          cfg.unmountOnEnd = true
        then true else s.doneFlag := rfl

/-- Display written by the frame body. -/
theorem overlayFrame_display (cfg : OverlayCfg) (i : OverlayInput)
    (s : OverlayState) :
    (overlayFrame cfg i s).display = overlayDisplayNext cfg i s := rfl

/-- Hold deadline is not touched by the frame body. -/
theorem overlayFrame_holdUntil (cfg : OverlayCfg) (i : OverlayInput)
    (s : OverlayState) : (overlayFrame cfg i s).holdUntil = s.holdUntil := rfl

/-- A step taken from a loading phase while active stays loading, keeps
the done state clear, and damps the display value toward
min(loadingCap, max(progress / 100, display)). -/
theorem overlayStep_active_loading (cfg : OverlayCfg) (i : OverlayInput)
    (s : OverlayState) (hact : i.active = true) (hp : s.phase = Phase.loading)
    (hdf : s.doneFlag = false) :
    (overlayStep cfg i s).phase = Phase.loading ∧
    (overlayStep cfg i s).doneFlag = false ∧
    (overlayStep cfg i s).display =
      damp s.display
        (min cfg.loadingCap (max (i.progress / 100) s.display))
        cfg.smoothFactor i.dt := by
  have heff : overlayEffect cfg i s = s := by
    rw [overlayEffect_active cfg i s hact]
    cases s
    simp_all
  have hnf : ¬(s.doneFlag = true ∧ cfg.unmountOnEnd = true) := by
    rw [hdf]
    simp
  rw [overlayStep_not_frozen cfg i s hnf, heff]
  have hp1 : overlayPhase1 i s = Phase.loading := by
    unfold overlayPhase1
    rw [hp]
    simp
  refine ⟨?_, ?_, ?_⟩
  · rw [overlayFrame_phase, hp1]
    simp
  · rw [overlayFrame_doneFlag, hp1, hdf]
    simp
  · rw [overlayFrame_display]
    unfold overlayDisplayNext
    rw [hact]
    simp

/-- Along a constantly active run from the initial state the phase stays
loading, the done state stays clear, and the display value stays between
0 and the loading cap. -/
theorem overlayRun_cap_invariant (cfg : OverlayCfg) (i : OverlayInput)
    (hact : i.active = true) (hdt : 0 ≤ i.dt) (hsf : 0 ≤ cfg.smoothFactor)
    (hcap0 : 0 ≤ cfg.loadingCap) :
    ∀ n, (overlayRun cfg i n).phase = Phase.loading ∧
      (overlayRun cfg i n).doneFlag = false ∧
      0 ≤ (overlayRun cfg i n).display ∧
      (overlayRun cfg i n).display ≤ cfg.loadingCap := by
  intro n
  induction n with
  | zero => exact ⟨rfl, rfl, le_refl 0, hcap0⟩
  | succ n ih =>
    obtain ⟨hp, hdf, hd0, hdcap⟩ := ih
    obtain ⟨hp2, hdf2, hdisp⟩ :=
      overlayStep_active_loading cfg i (overlayRun cfg i n) hact hp hdf
    have hstep : overlayRun cfg i (n + 1) =
        overlayStep cfg i (overlayRun cfg i n) := rfl
    have htargetcap :
        min cfg.loadingCap
          (max (i.progress / 100) (overlayRun cfg i n).display) ≤
          cfg.loadingCap := min_le_left _ _
    have htarget0 : 0 ≤ min cfg.loadingCap
        (max (i.progress / 100) (overlayRun cfg i n).display) :=
      le_min hcap0 (le_trans hd0 (le_max_right _ _))
    refine ⟨hstep ▸ hp2, hstep ▸ hdf2, ?_, ?_⟩
    · rw [hstep, hdisp]
      exact le_damp _ _ _ _ _ hd0 htarget0 hsf hdt
    · rw [hstep, hdisp]
      exact damp_le _ _ _ _ _ hdcap htargetcap hsf hdt

/-- With raw progress pinned at 100 and display at or below a loading cap
below 1, the per-frame target collapses to the loading cap itself. -/
theorem overlayTarget_eq_cap (cfg : OverlayCfg) (i : OverlayInput)
    (s : OverlayState) (hprog : i.progress = 100)
    (hdcap : s.display ≤ cfg.loadingCap) (hcap1 : cfg.loadingCap < 1) :
    min cfg.loadingCap (max (i.progress / 100) s.display) = cfg.loadingCap := by
  rw [hprog, show ((100 : ℝ) / 100) = 1 by norm_num,
    max_eq_left (le_trans hdcap hcap1.le)]
  exact min_eq_left hcap1.le

/-- Per-frame gap contraction of the constantly active run: the distance
from the display value to the loading cap shrinks by the factor
exp(-smoothFactor * dt) every frame. -/
theorem overlayRun_gap_contraction (cfg : OverlayCfg) (i : OverlayInput)
    (hact : i.active = true) (hprog : i.progress = 100) (hdt : 0 ≤ i.dt)
    (hsf : 0 ≤ cfg.smoothFactor) (hcap0 : 0 ≤ cfg.loadingCap)
    (hcap1 : cfg.loadingCap < 1) :
    ∀ n, cfg.loadingCap - (overlayRun cfg i (n + 1)).display =
      (cfg.loadingCap - (overlayRun cfg i n).display) *
        Real.exp (-cfg.smoothFactor * i.dt) := by
  intro n
  obtain ⟨hp, hdf, hd0, hdcap⟩ :=
    overlayRun_cap_invariant cfg i hact hdt hsf hcap0 n
  obtain ⟨-, -, hdisp⟩ :=
    overlayStep_active_loading cfg i (overlayRun cfg i n) hact hp hdf
  have hstep : overlayRun cfg i (n + 1) =
      overlayStep cfg i (overlayRun cfg i n) := rfl
  rw [hstep, hdisp, overlayTarget_eq_cap cfg i _ hprog hdcap hcap1]
  unfold damp lerp
  ring

/-- C6: along a run with active held true and raw progress held at 100,
the display value is damped toward min(loadingCap, max(progress / 100,
display)) every frame, never exceeds the loading cap, contracts its gap to
the cap by exp(-smoothFactor * dt) each frame, and tends to the loading
cap asymptotically. -/
theorem display_approaches_loading_cap (cfg : OverlayCfg) (i : OverlayInput)
    (hact : i.active = true) (hprog : i.progress = 100) (hdt : 0 < i.dt)
    (hsf : 0 < cfg.smoothFactor) (hcap0 : 0 ≤ cfg.loadingCap)
    (hcap1 : cfg.loadingCap < 1) :
    (∀ n, (overlayRun cfg i (n + 1)).display =
      damp (overlayRun cfg i n).display
        (min cfg.loadingCap
          (max (i.progress / 100) (overlayRun cfg i n).display))
        cfg.smoothFactor i.dt) ∧
    (∀ n, (overlayRun cfg i n).display ≤ cfg.loadingCap) ∧
    (∀ n, cfg.loadingCap - (overlayRun cfg i (n + 1)).display =
      (cfg.loadingCap - (overlayRun cfg i n).display) *
        Real.exp (-cfg.smoothFactor * i.dt)) ∧
    Filter.Tendsto (fun n => (overlayRun cfg i n).display) Filter.atTop
      (nhds cfg.loadingCap) := by
  have hinv := overlayRun_cap_invariant cfg i hact hdt.le hsf.le hcap0
  have hgap := overlayRun_gap_contraction cfg i hact hprog hdt.le hsf.le
    hcap0 hcap1
  refine ⟨?_, fun n => (hinv n).2.2.2, hgap, ?_⟩
  · intro n
    obtain ⟨hp, hdf, -, -⟩ := hinv n
    obtain ⟨-, -, hdisp⟩ :=
      overlayStep_active_loading cfg i (overlayRun cfg i n) hact hp hdf
    exact hdisp
  · have hE0 : (0 : ℝ) ≤ Real.exp (-cfg.smoothFactor * i.dt) :=
      (Real.exp_pos _).le
    have hE1 : Real.exp (-cfg.smoothFactor * i.dt) < 1 := by
      have harg : -cfg.smoothFactor * i.dt < 0 := by nlinarith
      calc Real.exp (-cfg.smoothFactor * i.dt) < Real.exp 0 :=
            Real.exp_lt_exp.mpr harg
        _ = 1 := Real.exp_zero
    have hform : ∀ n, cfg.loadingCap - (overlayRun cfg i n).display =
        cfg.loadingCap * Real.exp (-cfg.smoothFactor * i.dt) ^ n := by
      intro n
      induction n with
      | zero =>
        have hd0 : (overlayRun cfg i 0).display = 0 := rfl
        rw [hd0, pow_zero, mul_one, sub_zero]
      | succ n ih =>
        rw [hgap n, ih, pow_succ]
        ring
    have htend0 := tendsto_pow_atTop_nhds_zero_of_lt_one hE0 hE1
    have htend1 := htend0.const_mul cfg.loadingCap
    have htend2 := htend1.const_sub cfg.loadingCap
    have hfun : (fun n => (overlayRun cfg i n).display) =
        (fun n => cfg.loadingCap -
          cfg.loadingCap * Real.exp (-cfg.smoothFactor * i.dt) ^ n) := by
      funext n
      have h := hform n
      linarith
    rw [hfun]
    simpa using htend2

/-- Constant per-frame input of the C6 witness: loaders active with raw
progress pinned at 100. -/
noncomputable def capInput : OverlayInput :=
  { active := true, progress := 100, now := 0, dt := 1 }

/-- Witness for C6 at concrete inputs. -/
theorem display_approaches_loading_cap_witness :
    (overlayRun overlayDefaults capInput 4).display ≤
      overlayDefaults.loadingCap ∧
    Filter.Tendsto (fun n => (overlayRun overlayDefaults capInput n).display)
      Filter.atTop (nhds overlayDefaults.loadingCap) :=
  ⟨(display_approaches_loading_cap overlayDefaults capInput rfl rfl
      (by norm_num [capInput]) (by norm_num [overlayDefaults])
      (by norm_num [overlayDefaults]) (by norm_num [overlayDefaults])).2.1 4,
   (display_approaches_loading_cap overlayDefaults capInput rfl rfl
      (by norm_num [capInput]) (by norm_num [overlayDefaults])
      (by norm_num [overlayDefaults]) (by norm_num [overlayDefaults])).2.2.2⟩

/-- The effect alone never moves a non-done phase to done. -/
theorem overlayEffect_phase_ne_done (cfg : OverlayCfg) (i : OverlayInput)
    (s : OverlayState) (h : s.phase ≠ Phase.done) :
    (overlayEffect cfg i s).phase ≠ Phase.done := by
  rw [overlayEffect_phase]
  split_ifs <;> simp_all

/-- Once the done state is set with unmountOnEnd configured, no later
frame of any trace enters the done phase again: the frame body is frozen
and the effect alone cannot produce done. -/
theorem doneEntries_frozen (cfg : OverlayCfg) (hum : cfg.unmountOnEnd = true) :
    ∀ (tr : List OverlayInput) (s : OverlayState), s.doneFlag = true →
      doneEntries cfg s tr = 0 := by
  intro tr
  induction tr with
  | nil => intro s h; rfl
  | cons i rest ih =>
    intro s h
    have hstep : overlayStep cfg i s = overlayEffect cfg i s :=
      overlayStep_frozen cfg i s h hum
    have hflag : (overlayStep cfg i s).doneFlag = true := by
      rw [hstep, overlayEffect_doneFlag]
      exact h
    have hind : (if s.phase ≠ Phase.done ∧
        (overlayStep cfg i s).phase = Phase.done then 1 else 0) = 0 := by
      by_cases hp : s.phase = Phase.done
      · simp [hp]
      · have := overlayEffect_phase_ne_done cfg i s hp
        rw [hstep]
        simp [hp, this]
    rw [doneEntries, hind, ih (overlayStep cfg i s) hflag]

/-- When unmountOnEnd is configured, a step that enters the done phase
also sets the done state on that same frame. -/
theorem overlayStep_enter_done_sets_flag (cfg : OverlayCfg) (i : OverlayInput)
    (s : OverlayState) (hum : cfg.unmountOnEnd = true)
    (hne : s.phase ≠ Phase.done) (h : (overlayStep cfg i s).phase = Phase.done) :
    (overlayStep cfg i s).doneFlag = true := by
  by_cases hfz : s.doneFlag = true ∧ cfg.unmountOnEnd = true
  · rw [overlayStep_frozen cfg i s hfz.1 hfz.2, overlayEffect_doneFlag]
    exact hfz.1
  · rw [overlayStep_not_frozen cfg i s hfz] at h ⊢
    rw [overlayFrame_phase] at h
    rw [overlayFrame_doneFlag]
    have hp1 : overlayPhase1 i (overlayEffect cfg i s) ≠ Phase.done := by
      unfold overlayPhase1
      have heff := overlayEffect_phase_ne_done cfg i s hne
      split_ifs <;> simp_all
    by_cases hcond : overlayPhase1 i (overlayEffect cfg i s) = Phase.fading ∧
        overlayAlphaLocal cfg i (overlayEffect cfg i s) < 0.01
    · rw [if_pos ⟨hcond.1, hcond.2, hum⟩]
    · rw [if_neg hcond] at h
      exact absurd h hp1

/-- C7 amended: with unmountOnEnd configured (the default), the phase
enters done at most once along any input trace from any state, and the
done state is set exactly on the frame of that transition; with
unmountOnEnd disabled a re-activation after done can drive the machine
through the fade again and enter done a second time. -/
theorem finished_fires_at_most_once (cfg : OverlayCfg)
    (hum : cfg.unmountOnEnd = true) :
    (∀ (tr : List OverlayInput) (s : OverlayState),
      doneEntries cfg s tr ≤ 1) ∧
    (∀ (i : OverlayInput) (s : OverlayState), s.phase ≠ Phase.done →
      (overlayStep cfg i s).phase = Phase.done →
      (overlayStep cfg i s).doneFlag = true) := by
  constructor
  · intro tr
    induction tr with
    | nil => intro s; norm_num [doneEntries]
    | cons i rest ih =>
      intro s
      rw [doneEntries]
      by_cases hE : s.phase ≠ Phase.done ∧
          (overlayStep cfg i s).phase = Phase.done
      · rw [if_pos hE]
        have hflag := overlayStep_enter_done_sets_flag cfg i s hum hE.1 hE.2
        rw [doneEntries_frozen cfg hum rest _ hflag]
      · rw [if_neg hE]
        simpa using ih (overlayStep cfg i s)
  · intro i s hne h
    exact overlayStep_enter_done_sets_flag cfg i s hum hne h

/-- Witness for the amended C7 at concrete inputs. -/
theorem finished_fires_at_most_once_witness :
    doneEntries overlayDefaults overlayInit [cexInput1, cexInput2] ≤ 1 :=
  (finished_fires_at_most_once overlayDefaults rfl).1
    [cexInput1, cexInput2] overlayInit

/-- Overlay configuration with zero delay and zero fade (snap) and
unmountOnEnd left configured. -/
noncomputable def snapCfg : OverlayCfg :=
  { delay := 0, fade := 0, smoothFactor := 8, loadingCap := 0.96,
    unmountOnEnd := true }

/-- Overlay configuration with zero delay and zero fade (snap) and
unmountOnEnd disabled. -/
noncomputable def snapCfgKeep : OverlayCfg :=
  { delay := 0, fade := 0, smoothFactor := 8, loadingCap := 0.96,
    unmountOnEnd := false }

/-- Snap-trace frame 1: loaders inactive for one second. -/
noncomputable def snapIn1 : OverlayInput :=
  { active := false, progress := 0, now := 0, dt := 1 }

/-- Snap-trace frame 2: loading re-activates. -/
noncomputable def snapIn2 : OverlayInput :=
  { active := true, progress := 0, now := 1, dt := 1 }

/-- Snap-trace frame 3: loaders inactive again. -/
noncomputable def snapIn3 : OverlayInput :=
  { active := false, progress := 0, now := 2, dt := 1 }

/-- Snap-trace frame 4: still inactive one second later. -/
noncomputable def snapIn4 : OverlayInput :=
  { active := false, progress := 0, now := 3, dt := 1 }

/-- With zero delay and zero fade, a single inactive one-second frame
takes the initial state through hold and fading into done, and the done
state is set exactly when unmountOnEnd is configured. -/
theorem snap_first_step (cfg : OverlayCfg) (i : OverlayInput)
    (hdelay : cfg.delay = 0) (hfade : cfg.fade = 0) (ha : i.active = false)
    (hdt : i.dt = 1) :
    (overlayStep cfg i overlayInit).phase = Phase.done ∧
    (overlayStep cfg i overlayInit).doneFlag = cfg.unmountOnEnd := by
  have hnf : ¬(overlayInit.doneFlag = true ∧ cfg.unmountOnEnd = true) := by
    simp [overlayInit]
  have heff : overlayEffect cfg i overlayInit =
      { overlayInit with
        phase := Phase.hold
        holdUntil := i.now + cfg.delay * 1000 } :=
    overlayEffect_inactive_loading cfg i overlayInit ha rfl
  have hp1 : overlayPhase1 i (overlayEffect cfg i overlayInit) =
      Phase.fading := by
    unfold overlayPhase1
    rw [heff]
    simp [hdelay]
  have hK : overlayK cfg = 9999 := by
    unfold overlayK
    rw [hfade]
    norm_num
  have halpha : (overlayEffect cfg i overlayInit).alpha = 1 := by
    rw [overlayEffect_alpha]
    rfl
  have htgt : (if Phase.fading = Phase.loading ∨ Phase.fading = Phase.hold
      then (1 : ℝ) else 0) = 0 := by simp
  have haL : overlayAlphaLocal cfg i (overlayEffect cfg i overlayInit) =
      Real.exp (-9999 * (1 : ℝ)) := by
    unfold overlayAlphaLocal
    rw [hp1, htgt, hK, halpha, hdt]
    unfold damp lerp
    ring
  have hsmall : overlayAlphaLocal cfg i (overlayEffect cfg i overlayInit) <
      0.01 := by
    rw [haL]
    exact exp_neg_snap_lt
  constructor
  · rw [overlayStep_not_frozen cfg i overlayInit hnf, overlayFrame_phase,
      hp1, if_pos ⟨rfl, hsmall⟩]
  · rw [overlayStep_not_frozen cfg i overlayInit hnf, overlayFrame_doneFlag,
      hp1]
    by_cases hum : cfg.unmountOnEnd = true
    · rw [if_pos ⟨rfl, hsmall, hum⟩, hum]
    · simp only [Bool.not_eq_true] at hum
      rw [if_neg (by simp [hum]), overlayEffect_doneFlag, hum]
      rfl

/-- Counterexample to C2 as stated: after the overlay has finished with
unmountOnEnd configured, a re-activation followed by a de-activation puts
the phase ref back into hold (the effect still runs while the component
renders null), but the frozen frame body never performs the claimed
hold-to-fading transition even though now has passed the deadline: the
code keeps the phase at hold while the claimed relation leaves hold for
every value of the alpha guard. -/
theorem overlay_phase_relation_cex :
    (overlayStep snapCfg snapIn3
        (overlayStep snapCfg snapIn2
          (overlayStep snapCfg snapIn1 overlayInit))).phase = Phase.hold ∧
    (overlayStep snapCfg snapIn3
        (overlayStep snapCfg snapIn2
          (overlayStep snapCfg snapIn1 overlayInit))).holdUntil ≤
      snapIn4.now ∧
    (overlayStep snapCfg snapIn4
        (overlayStep snapCfg snapIn3
          (overlayStep snapCfg snapIn2
            (overlayStep snapCfg snapIn1 overlayInit)))).phase = Phase.hold ∧
    claimPhaseStep Phase.hold false true true ≠ Phase.hold ∧
    claimPhaseStep Phase.hold false true false ≠ Phase.hold := by
  obtain ⟨hph1, hdf1⟩ :=
    snap_first_step snapCfg snapIn1 rfl rfl rfl rfl
  have hum : snapCfg.unmountOnEnd = true := rfl
  rw [hum] at hdf1
  have hstep2 : overlayStep snapCfg snapIn2
      (overlayStep snapCfg snapIn1 overlayInit) =
      overlayEffect snapCfg snapIn2
        (overlayStep snapCfg snapIn1 overlayInit) :=
    overlayStep_frozen _ _ _ hdf1 hum
  have heff2 : overlayEffect snapCfg snapIn2
      (overlayStep snapCfg snapIn1 overlayInit) =
      { overlayStep snapCfg snapIn1 overlayInit with
        phase := Phase.loading } :=
    overlayEffect_active _ _ _ rfl
  have hph2 : (overlayStep snapCfg snapIn2
      (overlayStep snapCfg snapIn1 overlayInit)).phase = Phase.loading := by
    rw [hstep2, heff2]
  have hdf2 : (overlayStep snapCfg snapIn2
      (overlayStep snapCfg snapIn1 overlayInit)).doneFlag = true := by
    rw [hstep2, overlayEffect_doneFlag]
    exact hdf1
  have hstep3 : overlayStep snapCfg snapIn3
      (overlayStep snapCfg snapIn2
        (overlayStep snapCfg snapIn1 overlayInit)) =
      overlayEffect snapCfg snapIn3
        (overlayStep snapCfg snapIn2
          (overlayStep snapCfg snapIn1 overlayInit)) :=
    overlayStep_frozen _ _ _ hdf2 hum
  have heff3 : overlayEffect snapCfg snapIn3
      (overlayStep snapCfg snapIn2
        (overlayStep snapCfg snapIn1 overlayInit)) =
      { overlayStep snapCfg snapIn2
          (overlayStep snapCfg snapIn1 overlayInit) with
        phase := Phase.hold
        holdUntil := snapIn3.now + snapCfg.delay * 1000 } :=
    overlayEffect_inactive_loading _ _ _ rfl hph2
  have hph3 : (overlayStep snapCfg snapIn3
      (overlayStep snapCfg snapIn2
        (overlayStep snapCfg snapIn1 overlayInit))).phase = Phase.hold := by
    rw [hstep3, heff3]
  have hhu3 : (overlayStep snapCfg snapIn3
      (overlayStep snapCfg snapIn2
        (overlayStep snapCfg snapIn1 overlayInit))).holdUntil =
      snapIn3.now + snapCfg.delay * 1000 := by
    rw [hstep3, heff3]
  have hdf3 : (overlayStep snapCfg snapIn3
      (overlayStep snapCfg snapIn2
        (overlayStep snapCfg snapIn1 overlayInit))).doneFlag = true := by
    rw [hstep3, overlayEffect_doneFlag]
    exact hdf2
  have hstep4 : overlayStep snapCfg snapIn4
      (overlayStep snapCfg snapIn3
        (overlayStep snapCfg snapIn2
          (overlayStep snapCfg snapIn1 overlayInit))) =
      overlayEffect snapCfg snapIn4
        (overlayStep snapCfg snapIn3
          (overlayStep snapCfg snapIn2
            (overlayStep snapCfg snapIn1 overlayInit))) :=
    overlayStep_frozen _ _ _ hdf3 hum
  have heff4 : overlayEffect snapCfg snapIn4
      (overlayStep snapCfg snapIn3
        (overlayStep snapCfg snapIn2
          (overlayStep snapCfg snapIn1 overlayInit))) =
      overlayStep snapCfg snapIn3
        (overlayStep snapCfg snapIn2
          (overlayStep snapCfg snapIn1 overlayInit)) :=
    overlayEffect_inactive_other _ _ _ rfl (by rw [hph3]; simp)
  refine ⟨hph3, ?_, ?_, by decide, by decide⟩
  · rw [hhu3]
    norm_num [snapIn3, snapIn4, snapCfg]
  · rw [hstep4, heff4]
    exact hph3

/-- Damping toward target zero is multiplication by the decay factor. -/
theorem damp_to_zero (x lam dt : ℝ) :
    damp x 0 lam dt = x * Real.exp (-lam * dt) := by
  unfold damp lerp
  ring

/-- Counterexample to C7 as stated: with unmountOnEnd disabled, the trace
inactive, active, inactive (zero delay, zero fade) enters the done phase
on the first and on the third frame, so the finished transition fires
twice. -/
theorem finished_fires_twice_cex :
    doneEntries snapCfgKeep overlayInit [snapIn1, snapIn2, snapIn3] = 2 := by
  have hnf : ∀ s : OverlayState,
      ¬(s.doneFlag = true ∧ snapCfgKeep.unmountOnEnd = true) := by
    intro s
    simp [snapCfgKeep]
  obtain ⟨hph1, hdf1⟩ :=
    snap_first_step snapCfgKeep snapIn1 rfl rfl rfl rfl
  rw [show snapCfgKeep.unmountOnEnd = false from rfl] at hdf1
  have hmem1 : 0 ≤ (overlayStep snapCfgKeep snapIn1 overlayInit).alpha ∧
      (overlayStep snapCfgKeep snapIn1 overlayInit).alpha ≤ 1 :=
    overlayStep_alpha_mem snapCfgKeep snapIn1 overlayInit
      (by norm_num [snapIn1]) (by norm_num [overlayInit])
      (by norm_num [overlayInit])
  have hstep2 : overlayStep snapCfgKeep snapIn2
      (overlayStep snapCfgKeep snapIn1 overlayInit) =
      overlayFrame snapCfgKeep snapIn2
        (overlayEffect snapCfgKeep snapIn2
          (overlayStep snapCfgKeep snapIn1 overlayInit)) :=
    overlayStep_not_frozen _ _ _ (hnf _)
  have heff2 : overlayEffect snapCfgKeep snapIn2
      (overlayStep snapCfgKeep snapIn1 overlayInit) =
      { overlayStep snapCfgKeep snapIn1 overlayInit with
        phase := Phase.loading } :=
    overlayEffect_active _ _ _ rfl
  have hp1s2 : overlayPhase1 snapIn2
      (overlayEffect snapCfgKeep snapIn2
        (overlayStep snapCfgKeep snapIn1 overlayInit)) = Phase.loading := by
    unfold overlayPhase1
    rw [heff2]
    simp
  have hph2 : (overlayStep snapCfgKeep snapIn2
      (overlayStep snapCfgKeep snapIn1 overlayInit)).phase =
      Phase.loading := by
    rw [hstep2, overlayFrame_phase, hp1s2]
    simp
  have hdf2 : (overlayStep snapCfgKeep snapIn2
      (overlayStep snapCfgKeep snapIn1 overlayInit)).doneFlag = false := by
    rw [hstep2, overlayFrame_doneFlag, hp1s2, overlayEffect_doneFlag]
    simp [hdf1]
  have hmem2 : 0 ≤ (overlayStep snapCfgKeep snapIn2
      (overlayStep snapCfgKeep snapIn1 overlayInit)).alpha ∧
      (overlayStep snapCfgKeep snapIn2
        (overlayStep snapCfgKeep snapIn1 overlayInit)).alpha ≤ 1 :=
    overlayStep_alpha_mem snapCfgKeep snapIn2 _
      (by norm_num [snapIn2]) hmem1.1 hmem1.2
  have hstep3 : overlayStep snapCfgKeep snapIn3
      (overlayStep snapCfgKeep snapIn2
        (overlayStep snapCfgKeep snapIn1 overlayInit)) =
      overlayFrame snapCfgKeep snapIn3
        (overlayEffect snapCfgKeep snapIn3
          (overlayStep snapCfgKeep snapIn2
            (overlayStep snapCfgKeep snapIn1 overlayInit))) :=
    overlayStep_not_frozen _ _ _ (hnf _)
  have heff3 : overlayEffect snapCfgKeep snapIn3
      (overlayStep snapCfgKeep snapIn2
        (overlayStep snapCfgKeep snapIn1 overlayInit)) =
      { overlayStep snapCfgKeep snapIn2
          (overlayStep snapCfgKeep snapIn1 overlayInit) with
        phase := Phase.hold
        holdUntil := snapIn3.now + snapCfgKeep.delay * 1000 } :=
    overlayEffect_inactive_loading _ _ _ rfl hph2
  have hp1s3 : overlayPhase1 snapIn3
      (overlayEffect snapCfgKeep snapIn3
        (overlayStep snapCfgKeep snapIn2
          (overlayStep snapCfgKeep snapIn1 overlayInit))) = Phase.fading := by
    unfold overlayPhase1
    rw [heff3]
    norm_num [snapIn3, snapCfgKeep]
  have hK : overlayK snapCfgKeep = 9999 := by
    unfold overlayK
    norm_num [snapCfgKeep]
  have htgt : (if Phase.fading = Phase.loading ∨ Phase.fading = Phase.hold
      then (1 : ℝ) else 0) = 0 := by simp
  have halpha3 : (overlayEffect snapCfgKeep snapIn3
      (overlayStep snapCfgKeep snapIn2
        (overlayStep snapCfgKeep snapIn1 overlayInit))).alpha =
      (overlayStep snapCfgKeep snapIn2
        (overlayStep snapCfgKeep snapIn1 overlayInit)).alpha :=
    overlayEffect_alpha _ _ _
  have hsmall3 : overlayAlphaLocal snapCfgKeep snapIn3
      (overlayEffect snapCfgKeep snapIn3
        (overlayStep snapCfgKeep snapIn2
          (overlayStep snapCfgKeep snapIn1 overlayInit))) < 0.01 := by
    unfold overlayAlphaLocal
    rw [hp1s3, htgt, hK, halpha3,
      show snapIn3.dt = (1 : ℝ) from rfl, damp_to_zero]
    calc (overlayStep snapCfgKeep snapIn2
          (overlayStep snapCfgKeep snapIn1 overlayInit)).alpha *
          Real.exp (-9999 * (1 : ℝ)) ≤ Real.exp (-9999 * (1 : ℝ)) :=
          mul_le_of_le_one_left (Real.exp_pos _).le hmem2.2
      _ < 0.01 := exp_neg_snap_lt
  have hph3 : (overlayStep snapCfgKeep snapIn3
      (overlayStep snapCfgKeep snapIn2
        (overlayStep snapCfgKeep snapIn1 overlayInit))).phase =
      Phase.done := by
    rw [hstep3, overlayFrame_phase, hp1s3, if_pos ⟨rfl, hsmall3⟩]
  rw [doneEntries, doneEntries, doneEntries, doneEntries,
    if_pos ⟨show overlayInit.phase ≠ Phase.done by simp [overlayInit], hph1⟩,
    if_neg (show ¬((overlayStep snapCfgKeep snapIn1 overlayInit).phase ≠
      Phase.done ∧ _) by simp [hph1]),
    if_pos ⟨show (overlayStep snapCfgKeep snapIn2
      (overlayStep snapCfgKeep snapIn1 overlayInit)).phase ≠ Phase.done
      by simp [hph2], hph3⟩]
